import Mathlib

/-!
Verification development for the `vps-worker` service
(`src/vps-worker/src/main.rs` of the vibereport repository).

The service's pure logic is shallowly embedded here:

* the three validation regexes (`GITHUB_URL_RE`, `REPO_SLUG_RE`,
  `SINCE_DATE_RE`) become decidable character-list predicates;
* `scan_handler` and `scan_single_repo_raw` become pure functions from an
  environment oracle (describing the outcomes of the external subprocesses,
  which are collaborators outside this system) to an output record that
  captures the HTTP response, the subprocess invocations issued, the
  workspace-removal effect, and server-side log lines;
* the index handler's two-pass retry, backfill aggregation and publishing
  loop become list functions;
* `generate_date_range` is embedded together with a model of chrono's
  `NaiveDate` (proleptic Gregorian calendar, here restricted to the
  `YYYY-MM-DD` four-digit-year shapes the handler admits via
  `SINCE_DATE_RE` before ever calling `generate_date_range`);
* the two `tokio::sync::Semaphore` pools become a counted transition system.

Rust `u64` counters are modelled as `Nat`: the only arithmetic performed on
them is addition of per-day commit counts, and the embedding's theorems relate
the code's folds to the same sums, so wrap-around plays no role in any claim.
-/

namespace VR

/-! ## Character classes and regex models -/

/-- The safe character class `[a-zA-Z0-9_.-]` of `GITHUB_URL_RE` and
`REPO_SLUG_RE` (main.rs lines 12-16). -/
def safeChar (c : Char) : Bool :=
  c.isAlpha || c.isDigit || c == '-' || c == '_' || c == '.'

/-- All characters of a component are in the safe class. -/
def allSafe (l : List Char) : Bool := l.all safeChar

/-- Split a character list at its first `'/'`, returning the parts before and
after it.  Faithful decomposition for the anchored regexes: the safe class
contains no `'/'`, so an `owner/name` match splits exactly at the first
slash. -/
def splitAtSlash : List Char → Option (List Char × List Char)
  | [] => none
  | c :: rest =>
    if c = '/' then some ([], rest)
    else (splitAtSlash rest).map (fun p => (c :: p.1, p.2))

/-- Model of `REPO_SLUG_RE = ^[a-zA-Z0-9_.-]+/[a-zA-Z0-9_.-]+$`
(main.rs lines 15-16). -/
def repoSlugMatch (s : String) : Bool :=
  match splitAtSlash s.data with
  | none => false
  | some (o, n) => !o.isEmpty && allSafe o && !n.isEmpty && allSafe n

/-- Leading-match test on character lists (models `str::starts_with`). -/
def startsWithL (p s : String) : Bool := p.data.isPrefixOf s.data

/-- Model of
`GITHUB_URL_RE = ^https://github\.com/[a-zA-Z0-9_.-]+/[a-zA-Z0-9_.-]+(\.git)?$`
(main.rs lines 12-14).  After the literal scheme-and-host part, the remainder
must be `owner/name` or `owner/name.git` with nonempty safe components; the
optional `.git` alternative is kept explicitly even though `'.'` is itself in
the safe class. -/
def githubUrlMatch (s : String) : Bool :=
  if "https://github.com/".data.isPrefixOf s.data then
    match splitAtSlash (s.data.drop "https://github.com/".length) with
    | none => false
    | some (o, n) =>
      !o.isEmpty && allSafe o &&
        (( !n.isEmpty && allSafe n) ||
         (".git".data.isSuffixOf n &&
           !(n.take (n.length - 4)).isEmpty && allSafe (n.take (n.length - 4))))
  else false

/-- Model of `SINCE_DATE_RE = ^\d{4}-\d{2}-\d{2}$` (main.rs lines 19-20). -/
def sinceDateMatch (s : String) : Bool :=
  match s.data with
  | [y1, y2, y3, y4, h1, m1, m2, h2, d1, d2] =>
    y1.isDigit && y2.isDigit && y3.isDigit && y4.isDigit &&
      h1 == '-' && m1.isDigit && m2.isDigit && h2 == '-' && d1.isDigit && d2.isDigit
  | _ => false

/-! ## `str::replace` (deletion of every `"github:"` occurrence) -/

/-- Fuelled left-to-right removal of every non-overlapping occurrence of
`pat` from a character list; with fuel at least the list length this is
exactly Rust's `s.replace(pat, "")`.  Structural recursion on the fuel keeps
the definition kernel-reducible. -/
def removeAllAux (pat : List Char) : Nat → List Char → List Char
  | 0, rest => rest
  | _ + 1, [] => []
  | fuel + 1, c :: rest =>
    if pat ≠ [] ∧ pat.isPrefixOf (c :: rest) then
      removeAllAux pat fuel ((c :: rest).drop pat.length)
    else
      c :: removeAllAux pat fuel rest

/-- Rust's `s.replace(pat, "")` on character lists. -/
def removeAll (pat l : List Char) : List Char := removeAllAux pat l.length l

/-- Model of `req.repo.replace("github:", "")` (main.rs line 81). -/
def cleanRepo (s : String) : String := ⟨removeAll "github:".data s.data⟩

/-! ## Repository-reference validation (`scan_handler`, main.rs lines 71-89) -/

/-- The repo-reference validation of `scan_handler`: URLs (inputs starting
with `"http"`) must match `GITHUB_URL_RE` and are used as-is; any other input
has every `"github:"` occurrence deleted and the result must match
`REPO_SLUG_RE`, yielding the cloning URL `https://github.com/<slug>.git`.
On rejection the handler's 400 message is returned. -/
def validateRepo (repo : String) : Except String String :=
  if startsWithL "http" repo then
    if githubUrlMatch repo then .ok repo
    else .error "Invalid repo URL: must be https://github.com/\x7buser\x7d/\x7brepo\x7d"
  else
    let cleaned := cleanRepo repo
    if repoSlugMatch cleaned then .ok ("https://github.com/" ++ cleaned ++ ".git")
    else .error "Invalid repo slug: must be \x7buser\x7d/\x7brepo\x7d"

/-! ## Interactive scan handler (`scan_handler`, main.rs lines 36-155)

The subprocesses (git, the analyzer binary) and serde are external
collaborators; their outcomes are supplied by an environment oracle.  The
handler model records the HTTP response, every subprocess invocation it
issues (with the deadline it was wrapped in, if any), whether the temporary
workspace was removed, and the server-side log lines. -/

/-- Outcome of `Command::output().await` when the process ran:
exit status and captured streams. -/
structure ProcOut where
  success : Bool
  stdout : String
  stderr : String
deriving DecidableEq

/-- A subprocess invocation as issued by the worker: program, argument list,
and the deadline (in seconds) it was wrapped in, if any. -/
structure Invocation where
  prog : String
  args : List String
  deadline : Option Nat
deriving DecidableEq

/-- An HTTP response of the interactive handler: the analyzer's document on
success, or a status code and message on failure. -/
inductive HResp where
  | ok (body : String)
  | err (status : Nat) (msg : String)
deriving DecidableEq

/-- Body of `POST /scan` (main.rs lines 30-34). -/
structure ScanRequest where
  repo : String
  since : Option String

/-- Environment oracle for one `scan_handler` run: the authentication
comparison result, the semaphore acquisition result, each subprocess outcome
(`Except.error e` models `Command::output()` returning a spawn error `e`;
note the interactive path wraps neither subprocess in a timeout), and the
serde parse of the analyzer's stdout. -/
structure ScanEnv where
  authOk : Bool
  permitOk : Bool
  clone : Except String ProcOut
  analyze : Except String ProcOut
  parse : Except String String

/-- Observable outcome of one `scan_handler` run. -/
structure HandlerOut where
  resp : HResp
  spawned : List Invocation
  removed : Bool
  logs : List String
deriving DecidableEq

/-- Shallow embedding of `scan_handler` (main.rs lines 36-155): auth check,
permit acquisition, `since` defaulting and validation, repo validation, git
clone (no deadline), cleanup-and-400 on clone exit failure, analyzer run
(no deadline), unconditional cleanup, 500 on analyzer exit failure, parse.
`uuid` stands for the generated Uuid, `bin` for `state.vibereport_bin`. -/
def scanHandler (req : ScanRequest) (env : ScanEnv) (uuid bin : String) : HandlerOut :=
  if !env.authOk then ⟨.err 401 "Invalid token", [], false, []⟩
  else if !env.permitOk then ⟨.err 429 "Too many concurrent scans", [], false, []⟩
  else
    let tmpDir := "/tmp/vibereport-" ++ uuid
    let since := req.since.getD "2025-01-01"
    if !sinceDateMatch since then
      ⟨.err 400 "Invalid since format, expected YYYY-MM-DD", [], false, []⟩
    else
      match validateRepo req.repo with
      | .error msg => ⟨.err 400 msg, [], false, []⟩
      | .ok repoUrl =>
        let cloneInv : Invocation :=
          ⟨"git", ["clone", "--shallow-since=" ++ since, repoUrl, tmpDir], none⟩
        match env.clone with
        | .error e => ⟨.err 500 ("Clone failed: " ++ e), [cloneInv], false, []⟩
        | .ok c =>
          if !c.success then
            ⟨.err 400 "Clone failed: repository not accessible", [cloneInv], true,
              ["Clone failed for " ++ repoUrl ++ ": " ++ c.stderr]⟩
          else
            let analyzeInv : Invocation :=
              ⟨bin, [tmpDir, "--json", "--since", since, "--no-share"], none⟩
            match env.analyze with
            | .error e =>
              ⟨.err 500 ("Analysis failed: " ++ e), [cloneInv, analyzeInv], true, []⟩
            | .ok a =>
              if !a.success then
                ⟨.err 500 "Analysis failed", [cloneInv, analyzeInv], true,
                  ["Analysis failed for " ++ repoUrl ++ ": " ++ a.stderr]⟩
              else
                match env.parse with
                | .error e =>
                  ⟨.err 500 ("Parse error: " ++ e), [cloneInv, analyzeInv], true, []⟩
                | .ok data => ⟨.ok data, [cloneInv, analyzeInv], true, []⟩

/-! ## Analyzer documents and the batch scan unit
(`scan_single_repo_raw`, main.rs lines 422-487) -/

/-- One calendar day's non-cumulative counts for one repository, as emitted
in the analyzer's `daily_commits` array (main.rs lines 184-189). -/
structure DayEntry where
  date : String
  total : Nat
  ai : Nat
deriving DecidableEq

/-- The fields of the analyzer's JSON document that the index handler reads:
`total_commits` and `ai_commits` via `as_u64().unwrap_or(0)`, and the
`daily_commits` entries that deserialize into `DayEntry` (absent or malformed
arrays become the empty list, matching `unwrap_or_default`). -/
structure AnalyzerDoc where
  total_commits : Nat
  ai_commits : Nat
  daily_commits : List DayEntry
deriving DecidableEq

/-- Outcome of one subprocess invocation in the batch path, where each
invocation is wrapped in `tokio::time::timeout`: deadline exceeded, spawn
error, or a completed process. -/
inductive SubOutcome where
  | timeout
  | spawnErr (e : String)
  | done (p : ProcOut)
deriving DecidableEq

/-- Environment oracle for one `scan_single_repo_raw` run; `parse` is the
serde decoding of the analyzer's stdout (`none` models both non-JSON output
and `serde_json::from_str(..).ok()` failing). -/
structure UnitEnv where
  clone : SubOutcome
  analyze : SubOutcome
  parse : Option AnalyzerDoc
deriving DecidableEq

/-- Observable outcome of one batch scan unit. -/
structure UnitOut where
  result : Option AnalyzerDoc
  invocations : List Invocation
  removed : Bool
  logs : List String
deriving DecidableEq

/-- Whether the unit's run created the temporary workspace: the clone
process ran (to completion or until its deadline); on a spawn error no
process ever started, so no directory exists. -/
def unitWorkspaceCreated (env : UnitEnv) : Bool :=
  match env.clone with
  | .spawnErr _ => false
  | _ => true

/-- Shallow embedding of `scan_single_repo_raw` (main.rs lines 422-487):
clone with the hardcoded `--shallow-since=2026-01-01` cutoff under
`clone_timeout_secs`, then the analyzer with the hardcoded `--since
2026-01-01` under `analyze_timeout_secs`; timeouts and exit failures remove
the workspace and fail the unit, but a spawn error (`result.ok()?`) returns
without any cleanup.  `tmpDir` stands for `/tmp/vibereport-idx-<uuid>`. -/
def scanSingleRepoRaw (slug bin : String) (cloneTimeoutSecs analyzeTimeoutSecs : Nat)
    (env : UnitEnv) (tmpDir : String) : UnitOut :=
  let repoUrl := "https://github.com/" ++ slug ++ ".git"
  let cloneInv : Invocation :=
    ⟨"git", ["clone", "--shallow-since=2026-01-01", repoUrl, tmpDir], some cloneTimeoutSecs⟩
  match env.clone with
  | .timeout => ⟨none, [cloneInv], true, ["Clone timed out for " ++ slug]⟩
  | .spawnErr _ => ⟨none, [cloneInv], false, []⟩
  | .done c =>
    if !c.success then ⟨none, [cloneInv], true, ["Clone failed for " ++ slug]⟩
    else
      let analyzeInv : Invocation :=
        ⟨bin, [tmpDir, "--json", "--since", "2026-01-01", "--no-share"], some analyzeTimeoutSecs⟩
      match env.analyze with
      | .timeout =>
        ⟨none, [cloneInv, analyzeInv], true, ["Analysis timed out for " ++ slug]⟩
      | .spawnErr _ => ⟨none, [cloneInv, analyzeInv], false, []⟩
      | .done a =>
        if !a.success then
          ⟨none, [cloneInv, analyzeInv], true, ["Analysis failed for " ++ slug]⟩
        else ⟨env.parse, [cloneInv, analyzeInv], true, []⟩

/-! ## Two-pass batch scheduler (`index_scan_handler`, main.rs lines 290-342)

The scheduler is parametric in a scan oracle `scan slug cloneT analyzeT`
(the outcome of one `scan_single_repo_raw` call with those timeouts; a unit
whose semaphore acquisition fails is likewise a `none`).  The source collects
results through `buffer_unordered`, so ordering is not guaranteed; the
membership theorems below are order-insensitive. -/

/-- Pass 1: every panel repository is scanned with the normal timeouts
(clone 120s, analyze 60s), keeping each slug paired with its outcome
(main.rs lines 293-306). -/
def passOneScanned {α : Type} (repos : List String)
    (scan : String → Nat → Nat → Option α) : List (String × Option α) :=
  repos.map (fun slug => (slug, scan slug 120 60))

/-- The slugs whose pass-1 unit failed (main.rs lines 308-315). -/
def failedSlugs {α : Type} (repos : List String)
    (scan : String → Nat → Nat → Option α) : List String :=
  (passOneScanned repos scan).filterMap
    (fun p => if p.2.isNone then some p.1 else none)

/-- The `(slug, cloneTimeout, analyzeTimeout)` triples scheduled by pass 2:
exactly the pass-1 failures with doubled timeouts, and nothing at all when
pass 1 fully succeeded (main.rs lines 317-338). -/
def passTwoScheduled {α : Type} (repos : List String)
    (scan : String → Nat → Nat → Option α) : List (String × Nat × Nat) :=
  if (failedSlugs repos scan).isEmpty then []
  else (failedSlugs repos scan).map (fun slug => (slug, 240, 120))

/-- The whole two-pass run: pass-1 successes, extended (when pass 1 had
failures) by the pass-2 recoveries at timeouts 240s/120s
(main.rs lines 290-342). -/
def runTwoPass {α : Type} (repos : List String)
    (scan : String → Nat → Nat → Option α) : List (String × α) :=
  let rawResults := (passOneScanned repos scan).filterMap
    (fun p => p.2.map (fun v => (p.1, v)))
  if (failedSlugs repos scan).isEmpty then rawResults
  else
    rawResults ++ (failedSlugs repos scan).filterMap
      (fun slug => (scan slug 240 120).map (fun v => (slug, v)))

/-! ## Backfill aggregation and publishing
(`index_scan_handler`, main.rs lines 353-409) -/

/-- Byte-lexicographic comparison of ASCII strings, modelling Rust's
`&str` ordering as used by `day.date.as_str() <= scan_date.as_str()`
(main.rs line 378); on the ASCII date strings involved, comparing scalar
values charwise coincides with comparing UTF-8 bytes. -/
def strLe : List Char → List Char → Bool
  | [], _ => true
  | _ :: _, [] => false
  | a :: as_, b :: bs =>
    if a.val < b.val then true
    else if a.val = b.val then strLe as_ bs
    else false

/-- Rust `a <= b` on the two date strings. -/
def dateStrLe (a b : String) : Bool := strLe a.data b.data

/-- The fold of main.rs lines 377-383: running totals of `total` and `ai`
over the day-entries dated `<=` the scan date. -/
def cumulativeFor (days : List DayEntry) (d : String) : Nat × Nat :=
  days.foldl
    (fun acc day =>
      if dateStrLe day.date d then (acc.1 + day.total, acc.2 + day.ai) else acc)
    (0, 0)

/-- The specification-side sum: total commits over the day-entries dated
`<= d`. -/
def sumTotalLe (days : List DayEntry) (d : String) : Nat :=
  ((days.filter (fun day => dateStrLe day.date d)).map DayEntry.total).sum

/-- The specification-side sum: AI commits over the day-entries dated
`<= d`. -/
def sumAiLe (days : List DayEntry) (d : String) : Nat :=
  ((days.filter (fun day => dateStrLe day.date d)).map DayEntry.ai).sum

/-- Per-repo daily breakdown consumed by the backfill aggregation
(main.rs lines 177-182). -/
structure RepoDailyBreakdown where
  repo_slug : String
  days : List DayEntry
deriving DecidableEq

/-- One repository's published result (main.rs lines 169-174). -/
structure RepoScanResult where
  repo_slug : String
  total_commits : Nat
  ai_commits : Nat
deriving DecidableEq

/-- Extraction of each scanned repository's daily breakdown from its raw
analyzer document (main.rs lines 356-370). -/
def toDailies (raw : List (String × AnalyzerDoc)) : List RepoDailyBreakdown :=
  raw.map (fun p => ⟨p.1, p.2.daily_commits⟩)

/-- One target date's backfill result set: each repository's cumulative
counts as of `d`, repositories with zero cumulative total dropped
(main.rs lines 372-392). -/
def backfillResults (dailies : List RepoDailyBreakdown) (d : String) :
    List RepoScanResult :=
  (dailies.map (fun rd =>
      ({ repo_slug := rd.repo_slug
         total_commits := (cumulativeFor rd.days d).1
         ai_commits := (cumulativeFor rd.days d).2 } : RepoScanResult))).filter
    (fun r => decide (0 < r.total_commits))

/-- The non-backfill result set: the analyzer's already-cumulative
`total_commits`/`ai_commits` used directly, no filtering
(main.rs lines 397-405). -/
def directResults (raw : List (String × AnalyzerDoc)) : List RepoScanResult :=
  raw.map (fun p => ⟨p.1, p.2.total_commits, p.2.ai_commits⟩)

/-- The publishing stage of the background task (main.rs lines 351-409):
in backfill mode (more than one target date) one result set per date,
computed from the daily breakdowns; otherwise a single result set for
`scan_dates[0]` from the direct totals.  The handler never produces an empty
`scan_dates` list (main.rs lines 209-239), so the `[]` case is vacuous; it is
mapped to no posts (the source would panic indexing `scan_dates[0]`). -/
def indexPublish (scanDates : List String) (raw : List (String × AnalyzerDoc)) :
    List (String × List RepoScanResult) :=
  if 1 < scanDates.length then
    scanDates.map (fun d => (d, backfillResults (toDailies raw) d))
  else
    match scanDates with
    | [] => []
    | d :: _ => [(d, directResults raw)]

/-! ## Worker pools (`AppState`, main.rs lines 22-28 and 564-570)

Each pool is a `tokio::sync::Semaphore`; a unit acquires a permit before its
clone begins and holds it until the unit finishes (`_permit` is dropped at
the end of the unit's scope).  The pool is modelled as a counted transition
system over the phases of the unit state machine
`Pending → Cloning → Analyzing → finished`. -/

/-- Capacity of the interactive pool (`Semaphore::new(2)`, main.rs line 565). -/
def userSemaphoreCapacity : Nat := 2

/-- Capacity of the index pool (`Semaphore::new(3)`, main.rs line 566). -/
def indexSemaphoreCapacity : Nat := 3

/-- Counts of units in each phase of one pool's population. -/
structure PoolState where
  pending : Nat
  cloning : Nat
  analyzing : Nat
  finished : Nat
deriving DecidableEq

/-- One scheduling step against a pool of capacity `k`: a pending unit may
acquire a permit only while fewer than `k` permits are outstanding (the
semaphore suspends otherwise); a cloning unit may start analyzing (still
holding its permit) or fail; an analyzing unit finishes or fails, releasing
its permit.  Clone/analyze failure includes the timeout deadlines. -/
inductive PoolStep (k : Nat) : PoolState → PoolState → Prop
  | acquire {s : PoolState} (hp : 0 < s.pending)
      (hcap : s.cloning + s.analyzing < k) :
      PoolStep k s ⟨s.pending - 1, s.cloning + 1, s.analyzing, s.finished⟩
  | startAnalyze {s : PoolState} (hc : 0 < s.cloning) :
      PoolStep k s ⟨s.pending, s.cloning - 1, s.analyzing + 1, s.finished⟩
  | failClone {s : PoolState} (hc : 0 < s.cloning) :
      PoolStep k s ⟨s.pending, s.cloning - 1, s.analyzing, s.finished + 1⟩
  | endAnalyze {s : PoolState} (ha : 0 < s.analyzing) :
      PoolStep k s ⟨s.pending, s.cloning, s.analyzing - 1, s.finished + 1⟩

/-- Reachability under pool steps from an initial state. -/
inductive PoolReach (k : Nat) (init : PoolState) : PoolState → Prop
  | refl : PoolReach k init init
  | step {s s' : PoolState} : PoolReach k init s → PoolStep k s s' →
      PoolReach k init s'

/-! ## Calendar model and `generate_date_range` (main.rs lines 528-541)

`generate_date_range` parses its two arguments with chrono's
`NaiveDate::parse_from_str(_, "%Y-%m-%d")`, compares dates, and steps by
`chrono::Duration::days(1)`.  chrono's proleptic-Gregorian dates are modelled
by year/month/day triples with Gregorian month lengths and leap years; the
handler admits only strings matching `SINCE_DATE_RE` before calling
`generate_date_range` (main.rs lines 211-217), so the parser is modelled on
the four-digit `YYYY-MM-DD` shape. -/

/-- Gregorian leap-year rule. -/
def isLeap (y : Nat) : Bool := (y % 4 == 0 && y % 100 != 0) || y % 400 == 0

/-- Length of month `m` of year `y` (months `1..12`). -/
def monthLen (y m : Nat) : Nat :=
  if m = 2 then (if isLeap y then 29 else 28)
  else if m = 4 ∨ m = 6 ∨ m = 9 ∨ m = 11 then 30
  else 31

/-- A calendar date as a year/month/day triple. -/
structure Date where
  y : Nat
  m : Nat
  d : Nat
deriving DecidableEq

/-- Validity of a date: month in range and day within the month. -/
def dateValid (dt : Date) : Prop :=
  1 ≤ dt.m ∧ dt.m ≤ 12 ∧ 1 ≤ dt.d ∧ dt.d ≤ monthLen dt.y dt.m

instance : ∀ dt, Decidable (dateValid dt) := fun dt => by
  unfold dateValid; infer_instance

/-- Strict chronological order on dates (chrono's `Ord` on `NaiveDate`
compares the date values, which on valid dates is the lexicographic order of
the year/month/day triple). -/
def dateLt (a b : Date) : Prop :=
  a.y < b.y ∨ (a.y = b.y ∧ (a.m < b.m ∨ (a.m = b.m ∧ a.d < b.d)))

instance : ∀ a b, Decidable (dateLt a b) := fun a b => by
  unfold dateLt; infer_instance

/-- Chronological order on dates. -/
def dateLe (a b : Date) : Prop := dateLt a b ∨ a = b

instance : ∀ a b, Decidable (dateLe a b) := fun a b => by
  unfold dateLe; infer_instance

/-- Numeric value of a decimal digit character. -/
def digitVal (c : Char) : Nat := c.toNat - '0'.toNat

/-- Model of `NaiveDate::parse_from_str(s, "%Y-%m-%d")` on the
`SINCE_DATE_RE`-shaped strings the handler can pass: four year digits, two
month digits, two day digits, then the calendar validity check chrono
performs. -/
def parseDate (s : String) : Option Date :=
  match s.data with
  | [y1, y2, y3, y4, h1, m1, m2, h2, d1, d2] =>
    if y1.isDigit && y2.isDigit && y3.isDigit && y4.isDigit &&
        h1 == '-' && m1.isDigit && m2.isDigit && h2 == '-' &&
        d1.isDigit && d2.isDigit then
      let dt : Date :=
        ⟨((digitVal y1 * 10 + digitVal y2) * 10 + digitVal y3) * 10 + digitVal y4,
          digitVal m1 * 10 + digitVal m2,
          digitVal d1 * 10 + digitVal d2⟩
      if dateValid dt then some dt else none
    else none
  | _ => none

/-- Decimal digit character. -/
def digitChar (n : Nat) : Char := Char.ofNat ('0'.toNat + n)

/-- Two-digit zero-padded field, as chrono's `%m`/`%d` print it. -/
def pad2 (n : Nat) : String := ⟨[digitChar (n / 10 % 10), digitChar (n % 10)]⟩

/-- Four-digit zero-padded field, as chrono's `%Y` prints years below
10000. -/
def pad4 (n : Nat) : String :=
  ⟨[digitChar (n / 1000 % 10), digitChar (n / 100 % 10),
    digitChar (n / 10 % 10), digitChar (n % 10)]⟩

/-- Model of `current.format("%Y-%m-%d").to_string()` (main.rs line 537). -/
def formatDate (dt : Date) : String := pad4 dt.y ++ "-" ++ pad2 dt.m ++ "-" ++ pad2 dt.d

/-- The successor day (`current + chrono::Duration::days(1)`,
main.rs line 538). -/
def nextDay (dt : Date) : Date :=
  if dt.d < monthLen dt.y dt.m then ⟨dt.y, dt.m, dt.d + 1⟩
  else if dt.m < 12 then ⟨dt.y, dt.m + 1, 1⟩
  else ⟨dt.y + 1, 1, 1⟩

/-- Days in year `y`. -/
def daysInYear (y : Nat) : Nat := if isLeap y then 366 else 365

/-- Leap years among `0, 1, ..., y - 1` (year 0 is a leap year in the
proleptic Gregorian calendar). -/
def leapsBefore (y : Nat) : Nat := (y + 3) / 4 - (y + 99) / 100 + (y + 399) / 400

/-- Days from the calendar epoch (start of year 0) to the start of year
`y`. -/
def daysBeforeYear (y : Nat) : Nat := 365 * y + leapsBefore y

/-- Days from the start of year `y` to the start of its month `m`
(months `1..12`; `daysBeforeMonth y 13` is the whole year). -/
def daysBeforeMonth (y : Nat) : Nat → Nat
  | 0 => 0
  | m + 1 => daysBeforeMonth y m + (if m = 0 then 0 else monthLen y m)

/-- Absolute day number of a date: days since the calendar epoch.  The
difference of two day numbers is chrono's `(b - a).num_days()` for valid
`a ≤ b`. -/
def dayNumber (dt : Date) : Nat :=
  daysBeforeYear dt.y + daysBeforeMonth dt.y dt.m + (dt.d - 1)

/-- The `while current <= end` push loop of main.rs lines 534-539, with
explicit fuel; `generateDateRange` supplies fuel covering every iteration,
so the loop stops by the guard, never by fuel exhaustion. -/
def dateRangeLoop : Nat → Date → Date → List Date
  | 0, _, _ => []
  | fuel + 1, cur, stop =>
    if dateLe cur stop then cur :: dateRangeLoop fuel (nextDay cur) stop else []

/-- Shallow embedding of `generate_date_range` (main.rs lines 528-541):
parse both bounds (failure propagates as `none`), fail when `start > end`,
otherwise format the day-by-day walk from `start` to `end` inclusive. -/
def generateDateRange (fromS toS : String) : Option (List String) := do
  let start ← parseDate fromS
  let stop ← parseDate toS
  if dateLt stop start then none
  else some (((dateRangeLoop (dayNumber stop + 1 - dayNumber start) start stop).map formatDate))

/-- The day-by-day date walk from `s` to `e` inclusive, expressed by iterating
`nextDay`; the theorems below show `generate_date_range` produces exactly its
formatted image. -/
def rangeDates (s e : Date) : List Date :=
  (List.range (dayNumber e + 1 - dayNumber s)).map (fun i => nextDay^[i] s)

/-- Replace the stderr captured by the two interactive subprocesses (when a
process ran) with the given strings, leaving every other part of the
environment unchanged.  Used to state that the interactive handler's HTTP
response never depends on stderr content. -/
def setStderrs (env : ScanEnv) (s1 s2 : String) : ScanEnv :=
  { env with
    clone := match env.clone with
      | .ok p => .ok { p with stderr := s1 }
      | .error e => .error e
    analyze := match env.analyze with
      | .ok p => .ok { p with stderr := s2 }
      | .error e => .error e }

/-! ## The whole background index run (main.rs lines 290-409)

`indexScanRun` composes the two-pass scheduler over `scan_single_repo_raw`
units with the publishing stage.  The unit environments are supplied per
slug and per timeout pair (a retry may observe a different outcome than the
first attempt, which is the point of pass 2); `tmps` assigns each unit its
unique workspace path. -/

/-- The scan oracle realised by `scan_single_repo_raw` under the given
environments. -/
def unitScan (bin : String) (envs : String → Nat → Nat → UnitEnv)
    (tmps : String → String) (slug : String) (cloneT analyzeT : Nat) :
    Option AnalyzerDoc :=
  (scanSingleRepoRaw slug bin cloneT analyzeT (envs slug cloneT analyzeT) (tmps slug)).result

/-- All subprocess invocations issued by the batch run: the pass-1 units'
invocations followed by the pass-2 units' invocations. -/
def batchInvocations (repos : List String) (bin : String)
    (envs : String → Nat → Nat → UnitEnv) (tmps : String → String) :
    List Invocation :=
  (repos.map (fun slug =>
      (scanSingleRepoRaw slug bin 120 60 (envs slug 120 60) (tmps slug)).invocations)).flatten ++
    ((passTwoScheduled repos (unitScan bin envs tmps)).map (fun t =>
      (scanSingleRepoRaw t.1 bin t.2.1 t.2.2 (envs t.1 t.2.1 t.2.2) (tmps t.1)).invocations)).flatten

/-- The background index run: the subprocess invocations it issues and the
result sets it posts (one `POST /api/index-results` per entry).  The
requested `scanDates` reach only the publishing stage. -/
def indexScanRun (scanDates : List String) (repos : List String) (bin : String)
    (envs : String → Nat → Nat → UnitEnv) (tmps : String → String) :
    List Invocation × List (String × List RepoScanResult) :=
  (batchInvocations repos bin envs tmps,
   indexPublish scanDates (runTwoPass repos (unitScan bin envs tmps)))

/-! ## Supporting lemmas and claim theorems -/

lemma isLeap_iff (y : Nat) : isLeap y = true ↔ ((y % 4 = 0 ∧ y % 100 ≠ 0) ∨ y % 400 = 0) := by
  simp [isLeap, Bool.or_eq_true, Bool.and_eq_true, beq_iff_eq, bne_iff_ne]

lemma daysBeforeYear_succ (y : Nat) :
    daysBeforeYear (y + 1) = daysBeforeYear y + daysInYear y := by
  unfold daysBeforeYear daysInYear leapsBefore
  by_cases h : isLeap y
  · rw [if_pos h]
    rw [isLeap_iff] at h
    omega
  · rw [if_neg h]
    rw [Bool.not_eq_true] at h
    have h' : ¬ ((y % 4 = 0 ∧ y % 100 ≠ 0) ∨ y % 400 = 0) := by
      rw [← isLeap_iff, h]; simp
    omega

lemma dbm13 (y : Nat) : daysBeforeMonth y 13 = daysInYear y := by
  by_cases h : isLeap y <;>
    simp [daysBeforeMonth, monthLen, daysInYear, h]

lemma monthLen_pos (y m : Nat) : 0 < monthLen y m := by
  unfold monthLen
  split
  · split <;> norm_num
  · split <;> norm_num

lemma daysInYear_ge (y : Nat) : 365 ≤ daysInYear y := by
  unfold daysInYear; split <;> norm_num

lemma daysBeforeYear_mono {y y' : Nat} (h : y ≤ y') :
    daysBeforeYear y ≤ daysBeforeYear y' := by
  induction y', h using Nat.le_induction with
  | base => exact le_refl _
  | succ n hn ih =>
    rw [daysBeforeYear_succ]
    have := daysInYear_ge n
    omega

lemma dbm_succ (y m : Nat) (h : 1 ≤ m) :
    daysBeforeMonth y (m + 1) = daysBeforeMonth y m + monthLen y m := by
  have hm : m ≠ 0 := by omega
  simp [daysBeforeMonth, hm]

lemma dbm_le_succ (y m : Nat) : daysBeforeMonth y m ≤ daysBeforeMonth y (m + 1) := by
  simp [daysBeforeMonth]

lemma dbm_mono (y : Nat) {m m' : Nat} (h : m ≤ m') :
    daysBeforeMonth y m ≤ daysBeforeMonth y m' := by
  induction m', h using Nat.le_induction with
  | base => exact le_refl _
  | succ n hn ih => exact le_trans ih (dbm_le_succ y n)

lemma inYear_lt {dt : Date} (h : dateValid dt) :
    daysBeforeMonth dt.y dt.m + (dt.d - 1) < daysInYear dt.y := by
  obtain ⟨h1, h2, h3, h4⟩ := h
  have e1 : daysBeforeMonth dt.y (dt.m + 1) = daysBeforeMonth dt.y dt.m + monthLen dt.y dt.m :=
    dbm_succ dt.y dt.m h1
  have e2 : daysBeforeMonth dt.y (dt.m + 1) ≤ daysBeforeMonth dt.y 13 :=
    dbm_mono dt.y (by omega)
  have e3 := dbm13 dt.y
  omega

lemma dayNumber_mk (y m d : Nat) :
    dayNumber ⟨y, m, d⟩ = daysBeforeYear y + daysBeforeMonth y m + (d - 1) := rfl

lemma dayNumber_lt_of_dateLt {a b : Date} (ha : dateValid a) (hb : dateValid b)
    (h : dateLt a b) : dayNumber a < dayNumber b := by
  obtain ⟨ay, am, ad⟩ := a
  obtain ⟨by0, bm, bd⟩ := b
  obtain ⟨ha1, ha2, ha3, ha4⟩ := ha
  obtain ⟨hb1, hb2, hb3, hb4⟩ := hb
  simp only at ha1 ha2 ha3 ha4 hb1 hb2 hb3 hb4
  rw [dayNumber_mk, dayNumber_mk]
  rcases h with hy | ⟨hy, hm | ⟨hm, hd⟩⟩
  · simp only at hy
    have e1 : daysBeforeMonth ay am + (ad - 1) < daysInYear ay :=
      @inYear_lt ⟨ay, am, ad⟩ ⟨ha1, ha2, ha3, ha4⟩
    have e2 := daysBeforeYear_succ ay
    have e3 : daysBeforeYear (ay + 1) ≤ daysBeforeYear by0 := daysBeforeYear_mono (by omega)
    omega
  · simp only at hy hm
    subst hy
    have e1 : daysBeforeMonth ay (am + 1) = daysBeforeMonth ay am + monthLen ay am :=
      dbm_succ ay am ha1
    have e2 : daysBeforeMonth ay (am + 1) ≤ daysBeforeMonth ay bm :=
      dbm_mono ay (by omega)
    omega
  · simp only at hy hm hd
    subst hy; subst hm
    omega

lemma dateLt_trichotomy (a b : Date) : dateLt a b ∨ a = b ∨ dateLt b a := by
  obtain ⟨ay, am, ad⟩ := a
  obtain ⟨by0, bm, bd⟩ := b
  simp only [dateLt, Date.mk.injEq]
  omega

lemma dateLe_iff_dayNumber {a b : Date} (ha : dateValid a) (hb : dateValid b) :
    dateLe a b ↔ dayNumber a ≤ dayNumber b := by
  constructor
  · rintro (h | rfl)
    · exact le_of_lt (dayNumber_lt_of_dateLt ha hb h)
    · exact le_refl _
  · intro h
    rcases dateLt_trichotomy a b with h1 | h1 | h1
    · exact Or.inl h1
    · exact Or.inr h1
    · exact absurd (dayNumber_lt_of_dateLt hb ha h1) (by omega)

lemma dayNumber_inj {a b : Date} (ha : dateValid a) (hb : dateValid b)
    (h : dayNumber a = dayNumber b) : a = b := by
  rcases dateLt_trichotomy a b with h1 | h1 | h1
  · exact absurd (dayNumber_lt_of_dateLt ha hb h1) (by omega)
  · exact h1
  · exact absurd (dayNumber_lt_of_dateLt hb ha h1) (by omega)

lemma dateValid_mk (y m d : Nat) :
    dateValid ⟨y, m, d⟩ ↔ (1 ≤ m ∧ m ≤ 12 ∧ 1 ≤ d ∧ d ≤ monthLen y m) := Iff.rfl

lemma nextDay_valid {dt : Date} (h : dateValid dt) : dateValid (nextDay dt) := by
  obtain ⟨y, m, d⟩ := dt
  obtain ⟨h1, h2, h3, h4⟩ := h
  simp only at h1 h2 h3 h4
  by_cases hd : d < monthLen y m
  · have e : nextDay ⟨y, m, d⟩ = ⟨y, m, d + 1⟩ := by
      unfold nextDay; simp only; rw [if_pos hd]
    rw [e, dateValid_mk]
    exact ⟨h1, h2, by omega, by omega⟩
  · by_cases hm : m < 12
    · have e : nextDay ⟨y, m, d⟩ = ⟨y, m + 1, 1⟩ := by
        unfold nextDay; simp only; rw [if_neg hd, if_pos hm]
      rw [e, dateValid_mk]
      exact ⟨by omega, by omega, le_refl _, monthLen_pos _ _⟩
    · have e : nextDay ⟨y, m, d⟩ = ⟨y + 1, 1, 1⟩ := by
        unfold nextDay; simp only; rw [if_neg hd, if_neg hm]
      rw [e, dateValid_mk]
      exact ⟨by omega, by omega, le_refl _, monthLen_pos _ _⟩

lemma dayNumber_nextDay {dt : Date} (h : dateValid dt) :
    dayNumber (nextDay dt) = dayNumber dt + 1 := by
  obtain ⟨y, m, d⟩ := dt
  obtain ⟨h1, h2, h3, h4⟩ := h
  simp only at h1 h2 h3 h4
  by_cases hd : d < monthLen y m
  · have e : nextDay ⟨y, m, d⟩ = ⟨y, m, d + 1⟩ := by
      unfold nextDay; simp only; rw [if_pos hd]
    rw [e, dayNumber_mk, dayNumber_mk]
    omega
  · by_cases hm : m < 12
    · have e : nextDay ⟨y, m, d⟩ = ⟨y, m + 1, 1⟩ := by
        unfold nextDay; simp only; rw [if_neg hd, if_pos hm]
      rw [e, dayNumber_mk, dayNumber_mk]
      have e1 : daysBeforeMonth y (m + 1) = daysBeforeMonth y m + monthLen y m :=
        dbm_succ y m h1
      omega
    · have e : nextDay ⟨y, m, d⟩ = ⟨y + 1, 1, 1⟩ := by
        unfold nextDay; simp only; rw [if_neg hd, if_neg hm]
      have hm12 : m = 12 := by omega
      subst hm12
      have e31 : monthLen y 12 = 31 := rfl
      have hd31 : d = 31 := by omega
      subst hd31
      rw [e, dayNumber_mk, dayNumber_mk]
      have e1 := daysBeforeYear_succ y
      have e2 := dbm13 y
      have e3 : daysBeforeMonth y 13 = daysBeforeMonth y 12 + monthLen y 12 :=
        dbm_succ y 12 (by omega)
      have e4 : daysBeforeMonth (y + 1) 1 = 0 := rfl
      omega

lemma iter_nextDay_valid {dt : Date} (h : dateValid dt) (n : Nat) :
    dateValid (nextDay^[n] dt) := by
  induction n with
  | zero => exact h
  | succ k ih =>
    rw [Function.iterate_succ_apply']
    exact nextDay_valid ih

lemma iter_nextDay_dayNumber {dt : Date} (h : dateValid dt) (n : Nat) :
    dayNumber (nextDay^[n] dt) = dayNumber dt + n := by
  induction n with
  | zero => rfl
  | succ k ih =>
    rw [Function.iterate_succ_apply', dayNumber_nextDay (iter_nextDay_valid h k), ih]
    omega

lemma dateRangeLoop_char : ∀ (n : Nat) (cur stop : Date), dateValid cur → dateValid stop →
    dayNumber cur ≤ dayNumber stop → dayNumber stop + 1 - dayNumber cur = n →
    dateRangeLoop n cur stop = (List.range n).map (fun i => nextDay^[i] cur) := by
  intro n
  induction n with
  | zero => intro cur stop _ _ hle hn; omega
  | succ k ih =>
    intro cur stop hc hs hle hn
    have hcur : dateLe cur stop := (dateLe_iff_dayNumber hc hs).2 hle
    rw [dateRangeLoop, if_pos hcur, List.range_succ_eq_map, List.map_cons,
      Function.iterate_zero_apply, List.map_map]
    congr 1
    · rcases Nat.eq_zero_or_pos k with hk | hk
      · subst hk
        simp [dateRangeLoop]
      · have hnext : dayNumber (nextDay cur) = dayNumber cur + 1 := dayNumber_nextDay hc
        have := ih (nextDay cur) stop (nextDay_valid hc) hs (by omega) (by omega)
        rw [this]
        apply List.map_congr_left
        intro i _
        simp [Function.iterate_succ_apply]

lemma parseDate_valid {s : String} {dt : Date} (h : parseDate s = some dt) :
    dateValid dt := by
  unfold parseDate at h
  split at h
  · split at h
    · dsimp only at h
      split at h
      · rename_i hv
        cases h
        exact hv
      · cases h
    · cases h
  · cases h

lemma range_map_head? {β : Type} (k : Nat) (f : Nat → β) :
    ((List.range (k + 1)).map f).head? = some (f 0) := by
  rw [List.range_succ_eq_map]
  simp

lemma range_map_getLast? {β : Type} (k : Nat) (f : Nat → β) :
    ((List.range (k + 1)).map f).getLast? = some (f k) := by
  rw [List.range_succ, List.map_append]
  simp

lemma not_dateLt_of_dateLe {a b : Date} (h : dateLe a b) : ¬ dateLt b a := by
  obtain ⟨ay, am, ad⟩ := a
  obtain ⟨by0, bm, bd⟩ := b
  simp only [dateLe, dateLt, Date.mk.injEq] at h ⊢
  omega

/-- C5: for every pair of parsable `YYYY-MM-DD` dates with `from <= to`,
`generate_date_range` returns the inclusive, contiguous, ascending day-by-day
sequence of length `(to - from).days + 1` (so `from == to` yields a singleton);
for `from > to` or a non-parsable date it returns `none`. -/
theorem c5_date_range_generation :
    ∀ (fromS toS : String),
      ((parseDate fromS = none ∨ parseDate toS = none) →
        generateDateRange fromS toS = none) ∧
      ∀ (start stop : Date), parseDate fromS = some start → parseDate toS = some stop →
        (dateLt stop start → generateDateRange fromS toS = none) ∧
        (dateLe start stop →
          generateDateRange fromS toS = some ((rangeDates start stop).map formatDate) ∧
          (rangeDates start stop).length = (dayNumber stop - dayNumber start) + 1 ∧
          (rangeDates start stop).head? = some start ∧
          (rangeDates start stop).getLast? = some stop ∧
          List.Chain' (fun a b => b = nextDay a) (rangeDates start stop) ∧
          (fromS = toS → generateDateRange fromS toS = some [formatDate start])) := by
  intro fromS toS
  constructor
  · rintro (h | h) <;> simp [generateDateRange, h]
  · intro start stop hf ht
    have hvs : dateValid start := parseDate_valid hf
    have hve : dateValid stop := parseDate_valid ht
    constructor
    · intro hlt
      simp [generateDateRange, hf, ht, hlt]
    · intro hle
      have hnlt : ¬ dateLt stop start := not_dateLt_of_dateLe hle
      have hnum : dayNumber start ≤ dayNumber stop := (dateLe_iff_dayNumber hvs hve).1 hle
      have hloop := dateRangeLoop_char (dayNumber stop + 1 - dayNumber start) start stop
        hvs hve hnum rfl
      have hgen : generateDateRange fromS toS = some ((rangeDates start stop).map formatDate) := by
        simp [generateDateRange, hf, ht, hnlt, rangeDates, hloop]
      refine ⟨hgen, ?_, ?_, ?_, ?_, ?_⟩
      · rw [rangeDates, List.length_map, List.length_range]
        omega
      · have hn : dayNumber stop + 1 - dayNumber start =
            (dayNumber stop - dayNumber start) + 1 := by omega
        rw [rangeDates, hn, range_map_head?, Function.iterate_zero_apply]
      · have hn : dayNumber stop + 1 - dayNumber start =
            (dayNumber stop - dayNumber start) + 1 := by omega
        rw [rangeDates, hn, range_map_getLast?]
        have hval : dateValid (nextDay^[dayNumber stop - dayNumber start] start) :=
          iter_nextDay_valid hvs _
        have hdn : dayNumber (nextDay^[dayNumber stop - dayNumber start] start) =
            dayNumber stop := by
          rw [iter_nextDay_dayNumber hvs]
          omega
        rw [dayNumber_inj hval hve hdn]
      · rw [rangeDates, List.chain'_map]
        have hn : dayNumber stop + 1 - dayNumber start =
            (dayNumber stop - dayNumber start) + 1 := by omega
        rw [hn, List.chain'_range_succ]
        intro i _
        rw [Function.iterate_succ_apply']
      · intro heq
        have hss : start = stop := by
          rw [heq] at hf
          rw [hf] at ht
          injection ht
        subst hss
        rw [hgen]
        have h0 : dayNumber start + 1 - dayNumber start = 1 := by omega
        simp [rangeDates, h0]
lemma cumulativeFor_acc (d : String) (days : List DayEntry) : ∀ (t a : Nat),
    days.foldl
      (fun acc day =>
        if dateStrLe day.date d then (acc.1 + day.total, acc.2 + day.ai) else acc)
      (t, a) =
    (t + sumTotalLe days d, a + sumAiLe days d) := by
  induction days with
  | nil => intro t a; simp [sumTotalLe, sumAiLe]
  | cons day rest ih =>
    intro t a
    by_cases h : dateStrLe day.date d
    · simp only [List.foldl_cons, h, if_true, ih, sumTotalLe, sumAiLe,
        List.filter_cons, List.map_cons, List.sum_cons]
      rw [Prod.mk.injEq]
      constructor <;> omega
    · simp only [List.foldl_cons, h, if_false, ih, sumTotalLe, sumAiLe,
        List.filter_cons, Bool.false_eq_true]

lemma cumulativeFor_eq (days : List DayEntry) (d : String) :
    cumulativeFor days d = (sumTotalLe days d, sumAiLe days d) := by
  rw [cumulativeFor, cumulativeFor_acc]
  simp

lemma backfill_mem_iff (dailies : List RepoDailyBreakdown) (d : String)
    (r : RepoScanResult) :
    r ∈ backfillResults dailies d ↔
      ∃ rd, rd ∈ dailies ∧
        r = ⟨rd.repo_slug, sumTotalLe rd.days d, sumAiLe rd.days d⟩ ∧
        0 < sumTotalLe rd.days d := by
  simp only [backfillResults, List.mem_filter, List.mem_map, cumulativeFor_eq]
  constructor
  · rintro ⟨⟨rd, hrd, rfl⟩, hpos⟩
    exact ⟨rd, hrd, rfl, by simpa using hpos⟩
  · rintro ⟨rd, hrd, rfl, hpos⟩
    exact ⟨⟨rd, hrd, rfl⟩, by simpa using hpos⟩

lemma failedSlugs_mem {α : Type} (repos : List String)
    (scan : String → Nat → Nat → Option α) (s : String) :
    s ∈ failedSlugs repos scan ↔ s ∈ repos ∧ scan s 120 60 = none := by
  simp only [failedSlugs, passOneScanned, List.mem_filterMap, List.mem_map]
  constructor
  · rintro ⟨p, ⟨slug, hslug, rfl⟩, hp⟩
    by_cases h : (scan slug 120 60).isNone
    · rw [if_pos h] at hp
      cases hp
      exact ⟨hslug, Option.isNone_iff_eq_none.1 h⟩
    · rw [if_neg h] at hp
      cases hp
  · rintro ⟨hs, hnone⟩
    exact ⟨(s, scan s 120 60), ⟨s, hs, rfl⟩, by simp [hnone]⟩

lemma passOne_results_mem {α : Type} (repos : List String)
    (scan : String → Nat → Nat → Option α) (s : String) (v : α) :
    (s, v) ∈ (passOneScanned repos scan).filterMap
        (fun p => p.2.map (fun w => (p.1, w))) ↔
      s ∈ repos ∧ scan s 120 60 = some v := by
  simp only [passOneScanned, List.mem_filterMap, List.mem_map]
  constructor
  · rintro ⟨p, ⟨slug, hslug, rfl⟩, hp⟩
    simp only [Option.map_eq_some'] at hp
    obtain ⟨w, hw, heq⟩ := hp
    cases heq
    exact ⟨hslug, hw⟩
  · rintro ⟨hs, hsome⟩
    exact ⟨(s, scan s 120 60), ⟨s, hs, rfl⟩, by simp [hsome]⟩

lemma runTwoPass_mem {α : Type} (repos : List String)
    (scan : String → Nat → Nat → Option α) (s : String) (v : α) :
    (s, v) ∈ runTwoPass repos scan ↔
      s ∈ repos ∧ (scan s 120 60 = some v ∨
        (scan s 120 60 = none ∧ scan s 240 120 = some v)) := by
  rw [runTwoPass]
  by_cases hemp : (failedSlugs repos scan).isEmpty
  · rw [if_pos hemp]
    rw [passOne_results_mem]
    constructor
    · rintro ⟨hs, hv⟩
      exact ⟨hs, Or.inl hv⟩
    · rintro ⟨hs, hv | ⟨hnone, _⟩⟩
      · exact ⟨hs, hv⟩
      · exfalso
        have : s ∈ failedSlugs repos scan := (failedSlugs_mem _ _ _).2 ⟨hs, hnone⟩
        rw [List.isEmpty_iff] at hemp
        simp [hemp] at this
  · rw [if_neg hemp]
    rw [List.mem_append, passOne_results_mem]
    have hretry : (s, v) ∈ (failedSlugs repos scan).filterMap
        (fun slug => (scan slug 240 120).map (fun w => (slug, w))) ↔
        (s ∈ repos ∧ scan s 120 60 = none) ∧ scan s 240 120 = some v := by
      simp only [List.mem_filterMap]
      constructor
      · rintro ⟨slug, hslug, hp⟩
        simp only [Option.map_eq_some'] at hp
        obtain ⟨w, hw, heq⟩ := hp
        cases heq
        exact ⟨(failedSlugs_mem _ _ _).1 hslug, hw⟩
      · rintro ⟨hfail, hsome⟩
        exact ⟨s, (failedSlugs_mem _ _ _).2 hfail, by simp [hsome]⟩
    rw [hretry]
    constructor
    · rintro (⟨hs, hv⟩ | ⟨⟨hs, hnone⟩, hv⟩)
      · exact ⟨hs, Or.inl hv⟩
      · exact ⟨hs, Or.inr ⟨hnone, hv⟩⟩
    · rintro ⟨hs, hv | ⟨hnone, hv⟩⟩
      · exact Or.inl ⟨hs, hv⟩
      · exact Or.inr ⟨⟨hs, hnone⟩, hv⟩

/-- C2: pass 2 schedules exactly the pass-1 failures with doubled timeouts
(240s/120s) and only when the failure list is nonempty; the final result set
holds `(s, v)` exactly when `s` succeeded in pass 1 with `v` or failed pass 1
and recovered in pass 2 with `v` (so a repository failing both passes is
absent and there is no pass 3); concretely, when `{A, C}` fail pass 1 and only
`A` fails pass 2, the final set holds `B` and `C` but nothing for `A`. -/
theorem c2_two_pass_retry :
    (∀ (α : Type) (repos : List String) (scan : String → Nat → Nat → Option α),
      passTwoScheduled repos scan =
        (failedSlugs repos scan).map (fun slug => (slug, 240, 120)) ∧
      (∀ s, s ∈ failedSlugs repos scan ↔ s ∈ repos ∧ scan s 120 60 = none) ∧
      (∀ s v, (s, v) ∈ runTwoPass repos scan ↔
        s ∈ repos ∧ (scan s 120 60 = some v ∨
          (scan s 120 60 = none ∧ scan s 240 120 = some v))) ∧
      runTwoPass repos scan =
        (passOneScanned repos scan).filterMap (fun p => p.2.map (fun w => (p.1, w))) ++
          (failedSlugs repos scan).filterMap
            (fun slug => (scan slug 240 120).map (fun w => (slug, w)))) ∧
    runTwoPass ["A", "B", "C"]
        (fun s c _ => if s = "B" then some "B1"
          else if s = "C" ∧ c = 240 then some "C2" else none) =
      [("B", "B1"), ("C", "C2")] := by
  constructor
  · intro α repos scan
    refine ⟨?_, failedSlugs_mem repos scan, runTwoPass_mem repos scan, ?_⟩
    · by_cases h : (failedSlugs repos scan).isEmpty
      · rw [passTwoScheduled, if_pos h, List.isEmpty_iff.1 h]
        rfl
      · rw [passTwoScheduled, if_neg h]
    · by_cases h : (failedSlugs repos scan).isEmpty
      · rw [runTwoPass, if_pos h, List.isEmpty_iff.1 h]
        simp
      · rw [runTwoPass, if_neg h]
  · decide

/-- C1: with more than one target date, one result set is published per target
date; each published result's `total_commits`/`ai_commits` are the sums of
`total`/`ai` over that repository's day-entries dated lexicographically `<=`
the target date, repositories whose cumulative total is zero being excluded;
with exactly one date, the analyzer's cumulative fields are used directly. -/
theorem c1_backfill_aggregation :
    ∀ (dates : List String) (raw : List (String × AnalyzerDoc)),
      (1 < dates.length →
        indexPublish dates raw =
          dates.map (fun d => (d, backfillResults (toDailies raw) d)) ∧
        (indexPublish dates raw).length = dates.length) ∧
      (∀ d r, r ∈ backfillResults (toDailies raw) d →
        0 < r.total_commits ∧
        ∃ rd, rd ∈ toDailies raw ∧ r.repo_slug = rd.repo_slug ∧
          r.total_commits = sumTotalLe rd.days d ∧
          r.ai_commits = sumAiLe rd.days d) ∧
      (∀ d rd, rd ∈ toDailies raw → 0 < sumTotalLe rd.days d →
        (⟨rd.repo_slug, sumTotalLe rd.days d, sumAiLe rd.days d⟩ : RepoScanResult) ∈
          backfillResults (toDailies raw) d) ∧
      (∀ d, indexPublish [d] raw = [(d, directResults raw)]) := by
  intro dates raw
  refine ⟨?_, ?_, ?_, ?_⟩
  · intro hlen
    unfold indexPublish
    rw [if_pos hlen]
    exact ⟨rfl, by rw [List.length_map]⟩
  · intro d r hr
    obtain ⟨rd, hrd, rfl, hpos⟩ := (backfill_mem_iff _ _ _).1 hr
    exact ⟨hpos, rd, hrd, rfl, rfl, rfl⟩
  · intro d rd hrd hpos
    exact (backfill_mem_iff _ _ _).2 ⟨rd, hrd, rfl, hpos⟩
  · intro d
    unfold indexPublish
    simp

lemma safe_ne_colon {c : Char} (h : safeChar c = true) : c ≠ ':' := by
  intro hc
  subst hc
  exact absurd h (by decide)

lemma splitAtSlash_eq : ∀ {l o n : List Char}, splitAtSlash l = some (o, n) →
    l = o ++ '/' :: n := by
  intro l
  induction l with
  | nil => intro o n h; cases h
  | cons c rest ih =>
    intro o n h
    rw [splitAtSlash] at h
    by_cases hc : c = '/'
    · rw [if_pos hc] at h
      cases h
      simp [hc]
    · rw [if_neg hc] at h
      cases hsp : splitAtSlash rest with
      | none => rw [hsp] at h; cases h
      | some p =>
        rw [hsp] at h
        cases h
        rw [List.cons_append, ← ih hsp]

lemma removeAllAux_no_colon {pat : List Char} (hpat : ':' ∈ pat) :
    ∀ (fuel : Nat) (l : List Char), (∀ c ∈ l, c ≠ ':') →
      removeAllAux pat fuel l = l := by
  intro fuel
  induction fuel with
  | zero => intro l _; rfl
  | succ n ih =>
    intro l hl
    cases l with
    | nil => rfl
    | cons c rest =>
      rw [removeAllAux, if_neg, ih rest (fun x hx => hl x (List.mem_cons_of_mem _ hx))]
      rintro ⟨-, hpre⟩
      have hsub : ':' ∈ c :: rest := (List.isPrefixOf_iff_prefix.1 hpre).subset hpat
      exact hl _ hsub rfl

lemma cleanRepo_of_no_colon {s : String} (h : ∀ c ∈ s.data, c ≠ ':') :
    cleanRepo s = s := by
  unfold cleanRepo removeAll
  rw [removeAllAux_no_colon (by decide) _ _ h]

lemma slug_no_colon {s : String} (h : repoSlugMatch s = true) :
    ∀ c ∈ s.data, c ≠ ':' := by
  unfold repoSlugMatch at h
  cases hsp : splitAtSlash s.data with
  | none => rw [hsp] at h; cases h
  | some p =>
    rw [hsp] at h
    obtain ⟨p1, p2⟩ := p
    simp only [Bool.and_eq_true] at h
    obtain ⟨⟨⟨-, ho⟩, -⟩, hn⟩ := h
    have he := splitAtSlash_eq hsp
    intro c hc
    rw [he] at hc
    rcases List.mem_append.1 hc with hc1 | hc2
    · exact safe_ne_colon (List.all_eq_true.1 ho c hc1)
    · rcases List.mem_cons.1 hc2 with rfl | hc3
      · decide
      · exact safe_ne_colon (List.all_eq_true.1 hn c hc3)

/-- C3 counterexample: `"github:a/b"` is neither a `https://` URL nor a bare
safe-character slug, yet the validator accepts it (the handler first deletes
every `"github:"` occurrence); conversely `"http/x"` is a valid safe-character
slug but is rejected, because any input starting with `"http"` is checked only
against the URL regex. -/
theorem c3_repo_validation_counterexample :
    validateRepo "github:a/b" = .ok "https://github.com/a/b.git" ∧
    startsWithL "http" "github:a/b" = false ∧
    githubUrlMatch "github:a/b" = false ∧
    repoSlugMatch "github:a/b" = false ∧
    repoSlugMatch "http/x" = true ∧
    validateRepo "http/x" =
      .error "Invalid repo URL: must be https://github.com/\x7buser\x7d/\x7brepo\x7d" :=
  ⟨rfl, rfl, rfl, rfl, rfl, rfl⟩

/-- C3 (amended): the handler accepts exactly (a) inputs starting with
`"http"` that match `https://github.com/<owner>/<name>[.git]` with nonempty
safe components, and (b) inputs not starting with `"http"` that, after every
occurrence of the substring `"github:"` is deleted, are a bare
`<owner>/<name>` slug of safe characters (a plain slug contains no colon and
is unchanged by that deletion, hence accepted); every other input is rejected
with a 400 response before any subprocess is spawned. -/
theorem c3_repo_validation_amended :
    ∀ repo : String,
      ((validateRepo repo).isOk = true ↔
        (startsWithL "http" repo = true ∧ githubUrlMatch repo = true) ∨
        (startsWithL "http" repo = false ∧ repoSlugMatch (cleanRepo repo) = true)) ∧
      (repoSlugMatch repo = true → cleanRepo repo = repo) ∧
      (repoSlugMatch repo = true → startsWithL "http" repo = false →
        validateRepo repo = .ok ("https://github.com/" ++ repo ++ ".git")) ∧
      (∀ (req : ScanRequest) (env : ScanEnv) (uuid bin : String),
        req.repo = repo → (validateRepo repo).isOk = false →
        (scanHandler req env uuid bin).spawned = [] ∧
        ((scanHandler req env uuid bin).resp = .err 401 "Invalid token" ∨
         (scanHandler req env uuid bin).resp = .err 429 "Too many concurrent scans" ∨
         ∃ msg, (scanHandler req env uuid bin).resp = .err 400 msg)) := by
  intro repo
  refine ⟨?_, ?_, ?_, ?_⟩
  · unfold validateRepo
    by_cases hsw : startsWithL "http" repo
    · rw [if_pos hsw]
      by_cases hg : githubUrlMatch repo <;> simp [hg, hsw, Except.isOk, Except.toBool]
    · rw [if_neg hsw]
      by_cases hslug : repoSlugMatch (cleanRepo repo) <;>
        simp [hslug, hsw, Except.isOk, Except.toBool]
  · intro h
    exact cleanRepo_of_no_colon (slug_no_colon h)
  · intro h hsw
    unfold validateRepo
    rw [if_neg (by simp [hsw])]
    have hc : cleanRepo repo = repo := cleanRepo_of_no_colon (slug_no_colon h)
    simp only [hc, h, if_true]
  · intro req env uuid bin hrepo hfail
    unfold scanHandler
    dsimp only
    cases ha : env.authOk
    · exact ⟨rfl, Or.inl rfl⟩
    · cases hp : env.permitOk
      · exact ⟨rfl, Or.inr (Or.inl rfl)⟩
      · cases hs : sinceDateMatch (req.since.getD "2025-01-01")
        · exact ⟨rfl, Or.inr (Or.inr ⟨_, rfl⟩)⟩
        · rw [hrepo]
          cases hv : validateRepo repo with
          | ok u => rw [hv] at hfail; cases hfail
          | error msg => exact ⟨rfl, Or.inr (Or.inr ⟨msg, rfl⟩)⟩

/-- C4 (amended): every `/scan` failure response has status 401, 429, 400 or
500; the response never depends on the subprocess stderr content; a clone
non-zero exit yields 400 with a generic message and the stderr goes to the
server-side log only; an analyzer non-zero exit yields a generic 500 with the
stderr likewise logged only.  (Spawn and parse failures embed the io or parser
error text in their 500 message, which is why the claim's "never returned" is
amended; stderr and exit codes are still never returned.) -/
theorem c4_error_contract_amended :
    ∀ (req : ScanRequest) (env : ScanEnv) (uuid bin : String),
      (∀ s m, (scanHandler req env uuid bin).resp = .err s m →
        s = 401 ∨ s = 429 ∨ s = 400 ∨ s = 500) ∧
      (∀ s1 s2, (scanHandler req (setStderrs env s1 s2) uuid bin).resp =
        (scanHandler req env uuid bin).resp) ∧
      (∀ c, env.clone = .ok c → c.success = false →
        env.authOk = true → env.permitOk = true →
        sinceDateMatch (req.since.getD "2025-01-01") = true →
        ∀ u, validateRepo req.repo = .ok u →
        (scanHandler req env uuid bin).resp =
          .err 400 "Clone failed: repository not accessible" ∧
        (scanHandler req env uuid bin).logs =
          ["Clone failed for " ++ u ++ ": " ++ c.stderr]) ∧
      (∀ c a, env.clone = .ok c → c.success = true →
        env.analyze = .ok a → a.success = false →
        env.authOk = true → env.permitOk = true →
        sinceDateMatch (req.since.getD "2025-01-01") = true →
        ∀ u, validateRepo req.repo = .ok u →
        (scanHandler req env uuid bin).resp = .err 500 "Analysis failed" ∧
        (scanHandler req env uuid bin).logs =
          ["Analysis failed for " ++ u ++ ": " ++ a.stderr]) := by
  intro req env uuid bin
  obtain ⟨auth, permit, clone, analyze, parse⟩ := env
  refine ⟨?_, ?_, ?_, ?_⟩
  · intro s m h
    unfold scanHandler at h
    dsimp only at h
    repeat' split at h
    all_goals cases h
    all_goals simp
  · intro s1 s2
    unfold scanHandler setStderrs
    dsimp only
    rcases clone with e | c <;> rcases analyze with e2 | a <;> dsimp only
    all_goals repeat' split
    all_goals rfl
  · intro c hclone hcs hauth hpermit hsince u hv
    dsimp only at hclone hauth hpermit
    subst hclone; subst hauth; subst hpermit
    unfold scanHandler
    dsimp only
    rw [hsince, hv, hcs]
    exact ⟨rfl, rfl⟩
  · intro c a hclone hcs hanalyze has hauth hpermit hsince u hv
    dsimp only at hclone hanalyze hauth hpermit
    subst hclone; subst hanalyze; subst hauth; subst hpermit
    unfold scanHandler
    dsimp only
    rw [hsince, hv, hcs, has]
    exact ⟨rfl, rfl⟩

/-- C4 counterexample: a clone that exits non-zero yields status 400, not the
500 the claim assigns to clone errors; and the parse-failure message embeds
the parser's own error text (two different parser errors produce two different
response messages), not a generic message. -/
theorem c4_error_contract_counterexample :
    (scanHandler ⟨"a/b", none⟩
        ⟨true, true, .ok ⟨false, "", "fatal: repository not found"⟩,
          .ok ⟨true, "", ""⟩, .ok "doc"⟩ "u" "vibereport").resp =
      .err 400 "Clone failed: repository not accessible" ∧
    (scanHandler ⟨"a/b", none⟩
        ⟨true, true, .ok ⟨true, "", ""⟩, .ok ⟨true, "notjson", ""⟩,
          .error "expected value at line 1 column 1"⟩ "u" "vibereport").resp =
      .err 500 "Parse error: expected value at line 1 column 1" ∧
    (scanHandler ⟨"a/b", none⟩
        ⟨true, true, .ok ⟨true, "", ""⟩, .ok ⟨true, "notjson", ""⟩,
          .error "other parser detail"⟩ "u" "vibereport").resp =
      .err 500 "Parse error: other parser detail" := by
  refine ⟨?_, ?_, ?_⟩ <;> decide

/-- C6 (code bug exhibit): in the batch unit, when the clone succeeds (the
workspace therefore exists) and spawning the analyzer fails, the unit returns
failure without removing the workspace, contradicting the claim that every
exit path removes it. -/
theorem c6_workspace_leak_exhibit :
    (scanSingleRepoRaw "a/b" "vibereport" 120 60
        ⟨.done ⟨true, "", ""⟩, .spawnErr "No such file or directory (os error 2)", none⟩
        "/tmp/vibereport-idx-u").removed = false ∧
    (scanSingleRepoRaw "a/b" "vibereport" 120 60
        ⟨.done ⟨true, "", ""⟩, .spawnErr "No such file or directory (os error 2)", none⟩
        "/tmp/vibereport-idx-u").result = none ∧
    unitWorkspaceCreated
        ⟨.done ⟨true, "", ""⟩, .spawnErr "No such file or directory (os error 2)", none⟩ =
      true := by
  refine ⟨?_, ?_, ?_⟩ <;> rfl

/-- C7 counterexample: the interactive path issues both subprocess
invocations with no deadline at all. -/
theorem c7_deadlines_counterexample :
    (scanHandler ⟨"a/b", none⟩
        ⟨true, true, .ok ⟨true, "", ""⟩, .ok ⟨true, "out", ""⟩, .ok "doc"⟩
        "u" "vibereport").spawned.map (fun inv => inv.deadline) = [none, none] ∧
    (scanHandler ⟨"a/b", none⟩
        ⟨true, true, .ok ⟨true, "", ""⟩, .ok ⟨true, "out", ""⟩, .ok "doc"⟩
        "u" "vibereport").spawned.all (fun inv => inv.deadline.isSome) = false := by
  refine ⟨?_, ?_⟩ <;> rfl

/-- C7 (amended): only the batch path wraps its two subprocess invocations in
explicit deadlines (the unit's clone and analyze timeouts); there, exceeding
either deadline is treated like a failure: the unit reports no result and the
workspace is removed, with no partial output used. -/
theorem c7_deadlines_amended :
    ∀ (slug bin : String) (cloneT analyzeT : Nat) (env : UnitEnv) (tmpDir : String),
      ((scanSingleRepoRaw slug bin cloneT analyzeT env tmpDir).invocations.all
        (fun inv => inv.deadline.isSome) = true) ∧
      ((scanSingleRepoRaw slug bin cloneT analyzeT env tmpDir).invocations.map
          (fun inv => inv.deadline) = [some cloneT] ∨
        (scanSingleRepoRaw slug bin cloneT analyzeT env tmpDir).invocations.map
          (fun inv => inv.deadline) = [some cloneT, some analyzeT]) ∧
      (env.clone = .timeout →
        (scanSingleRepoRaw slug bin cloneT analyzeT env tmpDir).result = none ∧
        (scanSingleRepoRaw slug bin cloneT analyzeT env tmpDir).removed = true) ∧
      (∀ c, env.clone = .done c → c.success = true → env.analyze = .timeout →
        (scanSingleRepoRaw slug bin cloneT analyzeT env tmpDir).result = none ∧
        (scanSingleRepoRaw slug bin cloneT analyzeT env tmpDir).removed = true) := by
  intro slug bin cloneT analyzeT env tmpDir
  obtain ⟨clone, analyze, parse⟩ := env
  refine ⟨?_, ?_, ?_, ?_⟩
  · unfold scanSingleRepoRaw
    dsimp only
    repeat' split
    all_goals simp
  · unfold scanSingleRepoRaw
    dsimp only
    repeat' split
    all_goals first | (left; rfl) | (right; rfl)
  · intro hct
    dsimp only at hct
    subst hct
    exact ⟨rfl, rfl⟩
  · intro c hclone hcs hanalyze
    dsimp only at hclone hanalyze
    subst hclone
    subst hanalyze
    unfold scanSingleRepoRaw
    dsimp only
    rw [hcs]
    exact ⟨rfl, rfl⟩

/-- C9: the batch unit always clones with `--shallow-since=2026-01-01` and
always runs the analyzer with `--since 2026-01-01`, whatever its timeout
parameters and environment; and the batch run's subprocess invocations are
identical for any two requested date lists. -/
theorem c9_hardcoded_cutoff :
    ∀ (slug bin : String) (cloneT analyzeT : Nat) (env : UnitEnv) (tmpDir : String)
      (dates1 dates2 : List String) (repos : List String)
      (envs : String → Nat → Nat → UnitEnv) (tmps : String → String),
      (scanSingleRepoRaw slug bin cloneT analyzeT env tmpDir).invocations.head? =
        some ⟨"git", ["clone", "--shallow-since=2026-01-01",
          "https://github.com/" ++ slug ++ ".git", tmpDir], some cloneT⟩ ∧
      (∀ inv ∈ (scanSingleRepoRaw slug bin cloneT analyzeT env tmpDir).invocations.drop 1,
        inv = ⟨bin, [tmpDir, "--json", "--since", "2026-01-01", "--no-share"],
          some analyzeT⟩) ∧
      (indexScanRun dates1 repos bin envs tmps).1 =
        (indexScanRun dates2 repos bin envs tmps).1 := by
  intro slug bin cloneT analyzeT env tmpDir dates1 dates2 repos envs tmps
  obtain ⟨clone, analyze, parse⟩ := env
  refine ⟨?_, ?_, rfl⟩
  · unfold scanSingleRepoRaw
    dsimp only
    repeat' split
    all_goals rfl
  · unfold scanSingleRepoRaw
    dsimp only
    repeat' split
    all_goals intro inv hinv
    all_goals simp at hinv
    all_goals simp [hinv]

/-- C10: an interactive request omitting `since` behaves exactly like one
passing `"2025-01-01"`; that default matches the date regex; and when the
request is otherwise admitted, the clone is invoked with
`--shallow-since=2025-01-01`. -/
theorem c10_default_since :
    ∀ (repo : String) (env : ScanEnv) (uuid bin : String),
      scanHandler ⟨repo, none⟩ env uuid bin =
        scanHandler ⟨repo, some "2025-01-01"⟩ env uuid bin ∧
      sinceDateMatch "2025-01-01" = true ∧
      (∀ u, env.authOk = true → env.permitOk = true → validateRepo repo = .ok u →
        (scanHandler ⟨repo, none⟩ env uuid bin).spawned.head? =
          some ⟨"git", ["clone", "--shallow-since=2025-01-01", u,
            "/tmp/vibereport-" ++ uuid], none⟩) := by
  intro repo env uuid bin
  obtain ⟨auth, permit, clone, analyze, parse⟩ := env
  refine ⟨rfl, rfl, ?_⟩
  intro u hauth hpermit hv
  dsimp only at hauth hpermit
  subst hauth
  subst hpermit
  unfold scanHandler
  dsimp only
  rw [hv, if_neg (by decide), if_neg (by decide), if_neg (by decide)]
  dsimp only
  repeat' split
  all_goals rfl

/-- C8: the interactive pool has capacity 2 and the index pool capacity 3,
and for any capacity `k` and any number `n` of scheduled units, every state
reachable under the permit discipline (acquire before cloning, hold through
analyzing, release on finish) has at most `k` units simultaneously cloning or
analyzing. -/
theorem c8_pool_bound :
    userSemaphoreCapacity = 2 ∧ indexSemaphoreCapacity = 3 ∧
    ∀ (k n : Nat) (s : PoolState), PoolReach k ⟨n, 0, 0, 0⟩ s →
      s.cloning + s.analyzing ≤ k := by
  refine ⟨rfl, rfl, ?_⟩
  intro k n s h
  induction h with
  | refl => dsimp only; omega
  | step hreach hstep ih =>
    cases hstep <;> dsimp only <;> omega

/-- Witness for C8 at capacity 3 with 5 pending units after one acquire. -/
theorem c8_pool_bound_witness :
    PoolReach 3 ⟨5, 0, 0, 0⟩ ⟨4, 1, 0, 0⟩ ∧
    (PoolState.mk 4 1 0 0).cloning + (PoolState.mk 4 1 0 0).analyzing ≤ 3 := by
  have hreach : PoolReach 3 ⟨5, 0, 0, 0⟩ ⟨4, 1, 0, 0⟩ :=
    PoolReach.step PoolReach.refl (PoolStep.acquire (by decide) (by decide))
  exact ⟨hreach, c8_pool_bound.2.2 3 5 _ hreach⟩

/-- Witness for C5 at the concrete range 2025-01-01 to 2025-01-03. -/
theorem c5_date_range_generation_witness :
    parseDate "2025-01-01" = some ⟨2025, 1, 1⟩ ∧
    parseDate "2025-01-03" = some ⟨2025, 1, 3⟩ ∧
    dateLe ⟨2025, 1, 1⟩ ⟨2025, 1, 3⟩ ∧
    generateDateRange "2025-01-01" "2025-01-03" =
      some ((rangeDates ⟨2025, 1, 1⟩ ⟨2025, 1, 3⟩).map formatDate) ∧
    (rangeDates ⟨2025, 1, 1⟩ ⟨2025, 1, 3⟩).map formatDate =
      ["2025-01-01", "2025-01-02", "2025-01-03"] ∧
    generateDateRange "2025-01-03" "2025-01-01" = none :=
  ⟨by decide, by decide, by decide,
    (((c5_date_range_generation "2025-01-01" "2025-01-03").2 ⟨2025, 1, 1⟩ ⟨2025, 1, 3⟩ (by decide)
      (by decide)).2 (by decide)).1,
    by decide,
    ((c5_date_range_generation "2025-01-03" "2025-01-01").2 ⟨2025, 1, 3⟩ ⟨2025, 1, 1⟩ (by decide)
      (by decide)).1 (by decide)⟩

/-- Witness for C1 on a two-date backfill over one repository with two
day-entries. -/
theorem c1_backfill_aggregation_witness :
    (1 : Nat) < (["2025-01-01", "2025-01-02"] : List String).length ∧
    indexPublish ["2025-01-01", "2025-01-02"]
        [("octo/repo", ⟨3, 2, [⟨"2025-01-01", 2, 1⟩, ⟨"2025-01-03", 1, 1⟩]⟩)] =
      (["2025-01-01", "2025-01-02"] : List String).map
        (fun d => (d, backfillResults
          (toDailies [("octo/repo", ⟨3, 2, [⟨"2025-01-01", 2, 1⟩, ⟨"2025-01-03", 1, 1⟩]⟩)]) d)) ∧
    (⟨"octo/repo",
        sumTotalLe [⟨"2025-01-01", 2, 1⟩, ⟨"2025-01-03", 1, 1⟩] "2025-01-01",
        sumAiLe [⟨"2025-01-01", 2, 1⟩, ⟨"2025-01-03", 1, 1⟩] "2025-01-01"⟩ : RepoScanResult) ∈
      backfillResults
        (toDailies [("octo/repo", ⟨3, 2, [⟨"2025-01-01", 2, 1⟩, ⟨"2025-01-03", 1, 1⟩]⟩)])
        "2025-01-01" ∧
    backfillResults
        (toDailies [("octo/repo", ⟨3, 2, [⟨"2025-01-01", 2, 1⟩, ⟨"2025-01-03", 1, 1⟩]⟩)])
        "2025-01-02" = [⟨"octo/repo", 2, 1⟩] :=
  ⟨by decide,
    ((c1_backfill_aggregation ["2025-01-01", "2025-01-02"]
        [("octo/repo", ⟨3, 2, [⟨"2025-01-01", 2, 1⟩, ⟨"2025-01-03", 1, 1⟩]⟩)]).1
      (by decide)).1,
    (c1_backfill_aggregation ["2025-01-01", "2025-01-02"]
        [("octo/repo", ⟨3, 2, [⟨"2025-01-01", 2, 1⟩, ⟨"2025-01-03", 1, 1⟩]⟩)]).2.2.1
      "2025-01-01" ⟨"octo/repo", [⟨"2025-01-01", 2, 1⟩, ⟨"2025-01-03", 1, 1⟩]⟩
      (by decide) (by decide),
    by decide⟩

/-- Witness for C3 (amended): a plain slug is accepted unchanged, and a
malformed reference produces no subprocess. -/
theorem c3_repo_validation_amended_witness :
    cleanRepo "torvalds/linux" = "torvalds/linux" ∧
    validateRepo "torvalds/linux" = .ok ("https://github.com/" ++ "torvalds/linux" ++ ".git") ∧
    (scanHandler ⟨"bad repo!", none⟩
        ⟨true, true, .ok ⟨true, "", ""⟩, .ok ⟨true, "", ""⟩, .ok "d"⟩ "u" "vr").spawned = [] :=
  ⟨(c3_repo_validation_amended "torvalds/linux").2.1 (by decide),
    (c3_repo_validation_amended "torvalds/linux").2.2.1 (by decide) (by decide),
    ((c3_repo_validation_amended "bad repo!").2.2.2 ⟨"bad repo!", none⟩
      ⟨true, true, .ok ⟨true, "", ""⟩, .ok ⟨true, "", ""⟩, .ok "d"⟩ "u" "vr" rfl
      (by decide)).1⟩

/-- Witness for C4 (amended) at a concrete failing clone. -/
theorem c4_error_contract_amended_witness :
    (scanHandler ⟨"a/b", none⟩
        ⟨true, true, .ok ⟨false, "", "boom"⟩, .ok ⟨true, "", ""⟩, .ok "d"⟩ "u" "vr").resp =
      .err 400 "Clone failed: repository not accessible" ∧
    (scanHandler ⟨"a/b", none⟩
        ⟨true, true, .ok ⟨false, "", "boom"⟩, .ok ⟨true, "", ""⟩, .ok "d"⟩ "u" "vr").logs =
      ["Clone failed for " ++ "https://github.com/a/b.git" ++ ": " ++ "boom"] ∧
    ((400 : Nat) = 401 ∨ (400 : Nat) = 429 ∨ (400 : Nat) = 400 ∨ (400 : Nat) = 500) := by
  have h := (c4_error_contract_amended ⟨"a/b", none⟩
      ⟨true, true, .ok ⟨false, "", "boom"⟩, .ok ⟨true, "", ""⟩, .ok "d"⟩ "u" "vr").2.2.1
    ⟨false, "", "boom"⟩ rfl rfl rfl rfl (by decide) "https://github.com/a/b.git" rfl
  exact ⟨h.1, h.2,
    (c4_error_contract_amended ⟨"a/b", none⟩
        ⟨true, true, .ok ⟨false, "", "boom"⟩, .ok ⟨true, "", ""⟩, .ok "d"⟩ "u" "vr").1
      400 "Clone failed: repository not accessible" h.1⟩

/-- Witness for C7 (amended) at a concrete timed-out clone. -/
theorem c7_deadlines_amended_witness :
    (scanSingleRepoRaw "a/b" "vr" 120 60 ⟨.timeout, .timeout, none⟩ "/t").result = none ∧
    (scanSingleRepoRaw "a/b" "vr" 120 60 ⟨.timeout, .timeout, none⟩ "/t").removed = true ∧
    (scanSingleRepoRaw "a/b" "vr" 120 60 ⟨.timeout, .timeout, none⟩ "/t").invocations.all
      (fun inv => inv.deadline.isSome) = true := by
  have h := (c7_deadlines_amended "a/b" "vr" 120 60 ⟨.timeout, .timeout, none⟩ "/t").2.2.1 rfl
  exact ⟨h.1, h.2, (c7_deadlines_amended "a/b" "vr" 120 60 ⟨.timeout, .timeout, none⟩ "/t").1⟩

/-- Witness for C9 at a concrete completed unit. -/
theorem c9_hardcoded_cutoff_witness :
    (⟨"vr", ["/t", "--json", "--since", "2026-01-01", "--no-share"], some 60⟩ : Invocation) ∈
      (scanSingleRepoRaw "a/b" "vr" 120 60
        ⟨.done ⟨true, "", ""⟩, .done ⟨true, "out", ""⟩, some ⟨1, 0, []⟩⟩
        "/t").invocations.drop 1 ∧
    (⟨"vr", ["/t", "--json", "--since", "2026-01-01", "--no-share"], some 60⟩ : Invocation) =
      ⟨"vr", ["/t", "--json", "--since", "2026-01-01", "--no-share"], some 60⟩ :=
  ⟨by decide,
    (c9_hardcoded_cutoff "a/b" "vr" 120 60
        ⟨.done ⟨true, "", ""⟩, .done ⟨true, "out", ""⟩, some ⟨1, 0, []⟩⟩ "/t"
        [] [] [] (fun _ _ _ => ⟨.timeout, .timeout, none⟩) (fun _ => "/t")).2.1
      ⟨"vr", ["/t", "--json", "--since", "2026-01-01", "--no-share"], some 60⟩ (by decide)⟩

/-- Witness for C10 at a concrete request without `since`. -/
theorem c10_default_since_witness :
    validateRepo "a/b" = .ok "https://github.com/a/b.git" ∧
    (scanHandler ⟨"a/b", none⟩
        ⟨true, true, .ok ⟨true, "", ""⟩, .ok ⟨true, "out", ""⟩, .ok "d"⟩ "u" "vr").spawned.head? =
      some ⟨"git", ["clone", "--shallow-since=2025-01-01", "https://github.com/a/b.git",
        "/tmp/vibereport-" ++ "u"], none⟩ :=
  ⟨rfl,
    (c10_default_since "a/b" ⟨true, true, .ok ⟨true, "", ""⟩, .ok ⟨true, "out", ""⟩, .ok "d"⟩ "u" "vr").2.2
      "https://github.com/a/b.git" rfl rfl rfl⟩

end VR
